import Mathlib

/-!
Verification development for the visbrain source-projection / ROI-localization /
colorbar core (files `visbrain/brain/base/projection.py`,
`visbrain/objects/roi_obj.py`, `visbrain/utils/cbar/CbarBase.py`).

Python floats are embedded as exact unnormalized fractions (`Flt`), numpy
integer arrays as lists of integers, and in-place mutation as explicit state
passing: a method that can raise returns the state as mutated up to the raise
point together with an optional error string (Python exceptions leave the
partially mutated object behind, which the pair captures exactly).
-/

set_option linter.all false

namespace Visbrain

/-- A Python float embedded as an exact fraction: integer numerator over a
positive integer denominator. The fraction is kept unnormalized so that every
operation below is a plain integer computation. All constructors used in this
development keep the denominator positive. -/
structure Flt where
  num : Int
  den : Int
deriving DecidableEq, Repr

instance (n : Nat) : OfNat Flt n := ⟨⟨(n : Int), 1⟩⟩

/-- The float of an integer. -/
def Flt.ofInt (n : Int) : Flt := ⟨n, 1⟩

/-- Exact float addition. -/
def Flt.add (a b : Flt) : Flt := ⟨a.num * b.den + b.num * a.den, a.den * b.den⟩

/-- Exact float subtraction. -/
def Flt.sub (a b : Flt) : Flt := ⟨a.num * b.den - b.num * a.den, a.den * b.den⟩

/-- Exact float multiplication. -/
def Flt.mul (a b : Flt) : Flt := ⟨a.num * b.num, a.den * b.den⟩

/-- Exact float division (the sign moves to the numerator so that the
denominator stays positive; division by zero yields a denominator 0, an
artifact that no claim exercises). -/
def Flt.div (a b : Flt) : Flt :=
  if 0 ≤ b.num then ⟨a.num * b.den, a.den * b.num⟩
  else ⟨-(a.num * b.den), a.den * (-b.num)⟩

/-- Float comparison `a ≤ b` by cross multiplication (valid for positive
denominators). -/
def Flt.le (a b : Flt) : Bool := decide (a.num * b.den ≤ b.num * a.den)

/-- Float comparison `a < b` by cross multiplication. -/
def Flt.lt (a b : Flt) : Bool := decide (a.num * b.den < b.num * a.den)

/-- The smaller of two floats. -/
def Flt.min (a b : Flt) : Flt := if a.le b then a else b

/-- The larger of two floats. -/
def Flt.max (a b : Flt) : Flt := if a.le b then b else a

/-- Sum of a list of floats. -/
def fltSum (l : List Flt) : Flt := l.foldl Flt.add 0

/-- RGBA color with float components. -/
abbrev Rgba := Flt × Flt × Flt × Flt

/-- Color specification as accepted by the colorbar: a color name or a
concrete RGBA tuple. -/
inductive ColorSpec where
  | named (s : String)
  | rgba (c : Rgba)
deriving DecidableEq, Repr

/-- Modelled from the spec: the named-color table of the external color
utilities (`visbrain/utils/color.py` is not among the embedded sources); maps
a color name to its concrete RGBA tuple. -/
def namedColor (s : String) : Rgba :=
  if s = "gray" then (⟨1, 2⟩, ⟨1, 2⟩, ⟨1, 2⟩, 1)
  else if s = "red" then (1, 0, 0, 1)
  else if s = "white" then (1, 1, 1, 1)
  else (0, 0, 0, 1)

/-- Modelled from the spec: `color2tuple` resolves a color specification to a
concrete RGBA tuple (a tuple resolves to itself, a name through the table). -/
def color2tuple : ColorSpec → Rgba
  | .named s => namedColor s
  | .rgba c => c

/-- Modelled from the spec: resolution of an optional color; an absent color
falls back to the external utilities' default color. -/
def color2tupleOpt (o : Option ColorSpec) : Rgba :=
  color2tuple (o.getD (.named "black"))

/-- State of `CbarBase` (`visbrain/utils/cbar/CbarBase.py`): the six
color-mapping fields set by `__init__`/`set_data`, the text/style fields, and
the cached `_minmax` range. Fields that `set_data` may overwrite with `None`
are `Option`-valued. -/
structure CbarBase where
  cmap : Option String
  clim : Option (Flt × Flt)
  vmin : Option Flt
  vmax : Option Flt
  under : Option ColorSpec
  over : Option ColorSpec
  cblabel : String
  cbtxtsz : Flt
  cbtxtsh : Flt
  txtcolor : ColorSpec
  txtsz : Flt
  txtsh : Flt
  limtxt : Bool
  name : String
  bgcolor : ColorSpec
  border : Bool
  bw : Flt
  ndigits : Nat
  width : Flt
  minmax : Option (Flt × Flt)
deriving DecidableEq, Repr

/-- Minimum of a nonempty numpy array, given as head element plus tail
(`data.min()` requires a nonempty array). -/
def npMin (x : Flt) (xs : List Flt) : Flt := xs.foldl Flt.min x

/-- Maximum of a nonempty numpy array, given as head element plus tail. -/
def npMax (x : Flt) (xs : List Flt) : Flt := xs.foldl Flt.max x

/-- Embeds `CbarBase.set_data(data, cmap=None, clim=None, vmin=None,
vmax=None, under=None, over=None)`: unconditionally stores the six arguments
and caches `(data.min(), data.max())` in `_minmax`. -/
def CbarBase.set_data (cb : CbarBase) (d0 : Flt) (ds : List Flt)
    (cmap : Option String) (clim : Option (Flt × Flt)) (vmin vmax : Option Flt)
    (under over : Option ColorSpec) : CbarBase :=
  { cb with cmap := cmap, clim := clim, vmin := vmin, vmax := vmax,
            under := under, over := over,
            minmax := some (npMin d0 ds, npMax d0 ds) }

/-- Embeds `CbarBase.autoscale`: `self._clim = self._minmax`. -/
def CbarBase.autoscale (cb : CbarBase) : CbarBase :=
  { cb with clim := cb.minmax }

/-- The parameter bundle returned by `CbarBase.to_kwargs` and consumed by
`array2colormap`. -/
structure CbarKwargs where
  cmap : Option String
  clim : Option (Flt × Flt)
  vmin : Option Flt
  under : Option ColorSpec
  vmax : Option Flt
  over : Option ColorSpec
deriving DecidableEq, Repr

/-- Embeds `CbarBase.to_kwargs`. -/
def CbarBase.to_kwargs (cb : CbarBase) : CbarKwargs :=
  { cmap := cb.cmap, clim := cb.clim, vmin := cb.vmin, under := cb.under,
    vmax := cb.vmax, over := cb.over }

/-- The serializable snapshot returned by `CbarBase.to_dict`: colors are
resolved to concrete RGBA tuples via `color2tuple`. -/
structure CbarDict where
  cmap : Option String
  clim : Option (Flt × Flt)
  vmin : Option Flt
  under : Rgba
  vmax : Option Flt
  over : Rgba
  cblabel : String
  cbtxtsz : Flt
  cbtxtsh : Flt
  txtcolor : Rgba
  txtsz : Flt
  txtsh : Flt
  border : Bool
  bw : Flt
  name : String
  limtxt : Bool
  bgcolor : Rgba
  ndigits : Nat
  width : Flt
deriving DecidableEq, Repr

/-- Embeds `CbarBase.to_dict`. -/
def CbarBase.to_dict (cb : CbarBase) : CbarDict :=
  { cmap := cb.cmap, clim := cb.clim, vmin := cb.vmin,
    under := color2tupleOpt cb.under, vmax := cb.vmax,
    over := color2tupleOpt cb.over, cblabel := cb.cblabel,
    cbtxtsz := cb.cbtxtsz, cbtxtsh := cb.cbtxtsh,
    txtcolor := color2tuple cb.txtcolor, txtsz := cb.txtsz,
    txtsh := cb.txtsh, border := cb.border, bw := cb.bw, name := cb.name,
    limtxt := cb.limtxt, bgcolor := color2tuple cb.bgcolor,
    ndigits := cb.ndigits, width := cb.width }

/-- ColorMapper configuration rebuilt from the serialized snapshot: the
color-mapping fields of the dictionary, with the resolved tuples as colors. -/
def kwargsOfDict (d : CbarDict) : CbarKwargs :=
  { cmap := d.cmap, clim := d.clim, vmin := d.vmin,
    under := some (.rgba d.under), vmax := d.vmax,
    over := some (.rgba d.over) }

/-- Clamp a float to the unit interval. -/
def clamp01 (t : Flt) : Flt := Flt.max 0 (Flt.min 1 t)

/-- Whether `x` lies strictly below an optional lower threshold (`False`
when the threshold is absent). -/
def belowOpt (o : Option Flt) (x : Flt) : Bool :=
  match o with
  | some v => x.lt v
  | none => false

/-- Whether `x` lies strictly above an optional upper threshold. -/
def aboveOpt (o : Option Flt) (x : Flt) : Bool :=
  match o with
  | some v => v.lt x
  | none => false

/-- Minimum of a possibly empty list (0 for the empty list); used for the
data-derived color limits when `clim` is absent. -/
def listMinD : List Flt → Flt
  | [] => 0
  | x :: xs => npMin x xs

/-- Maximum of a possibly empty list (0 for the empty list). -/
def listMaxD : List Flt → Flt
  | [] => 0
  | x :: xs => npMax x xs

/-- Modelled from the spec: mapping of one scalar through the ColorMapper
contract of §4.2 — values below `vmin` get the `under` color, values above
`vmax` get the `over` color, other values are normalized against the color
limits `(a, b)`, clamped, and mapped through the colormap `cmapF` under its
configured name. -/
def mapOne (cmapF : String → Flt → Rgba) (k : CbarKwargs) (a b : Flt)
    (x : Flt) : Rgba :=
  if belowOpt k.vmin x then color2tupleOpt k.under
  else if aboveOpt k.vmax x then color2tupleOpt k.over
  else cmapF (k.cmap.getD "inferno") (clamp01 ((x.sub a).div (b.sub a)))

/-- Modelled from the spec: `array2colormap(values, **kwargs)` — maps every
scalar of `data` to a color; absent `clim` falls back to the data range. The
palette content of a named colormap is external, so the evaluation function
`cmapF` is a parameter. -/
def array2colormap (cmapF : String → Flt → Rgba) (k : CbarKwargs)
    (data : List Flt) : List Rgba :=
  let lims := k.clim.getD (listMinD data, listMaxD data)
  data.map (mapOne cmapF k lims.1 lims.2)

/-! ### Source projection (`visbrain/brain/base/projection.py`) -/

/-- A 3D point with integer coordinates (mesh vertex or source position). -/
structure Vec3 where
  x : Int
  y : Int
  z : Int
deriving DecidableEq, Repr

/-- Squared euclidean distance between two points. -/
def dist2 (a b : Vec3) : Int :=
  (a.x - b.x) * (a.x - b.x) + (a.y - b.y) * (a.y - b.y)
    + (a.z - b.z) * (a.z - b.z)

/-- One source of the source-set collaborator: position, scalar activity,
masked flag (§3 of the spec). -/
structure BrainSource where
  pos : Vec3
  data : Flt
  masked : Bool
deriving DecidableEq, Repr

/-- The source-set collaborator: sources plus the mutable cached (min, max)
range written back by the projection. -/
structure SourcesState where
  sources : List BrainSource
  minmax : Option (Flt × Flt)
deriving DecidableEq, Repr

/-- Modelled from the spec: whether one source contributes to a vertex — the
source must lie within `radius` of the vertex and, unless `contribute` is
set, on the same hemisphere (sign of the x coordinate) as the vertex
(§4.1). -/
def contributesTo (contribute : Bool) (r : Flt) (s : BrainSource)
    (v : Vec3) : Bool :=
  (Flt.ofInt (dist2 s.pos v)).le (r.mul r) &&
    (contribute || (decide (0 ≤ s.pos.x) == decide (0 ≤ v.x)))

/-- A per-vertex numpy masked array: data plus validity mask (`True` marks a
vertex with no contributing source). -/
structure MaskedArray where
  data : List Flt
  mask : List Bool
deriving DecidableEq, Repr

/-- Modelled from the spec: the source collaborator's `project_modulation` —
per-vertex aggregated activity of the sources within the radius, masked at
the vertices no source reaches (§4.1 step 3, §6). -/
def project_modulation (srcs : List BrainSource) (verts : List Vec3)
    (r : Flt) (c : Bool) : MaskedArray :=
  { data := verts.map
      (fun v => fltSum ((srcs.filter (fun s => contributesTo c r s v)).map
        (fun s => s.data))),
    mask := verts.map (fun v => !srcs.any (fun s => contributesTo c r s v)) }

/-- Modelled from the spec: the source collaborator's `project_repartition` —
per-vertex count of contributing sources, masked where the count is zero. -/
def project_repartition (srcs : List BrainSource) (verts : List Vec3)
    (r : Flt) (c : Bool) : MaskedArray :=
  { data := verts.map
      (fun v => Flt.ofInt
        ((srcs.filter (fun s => contributesTo c r s v)).length : Int)),
    mask := verts.map (fun v => !srcs.any (fun s => contributesTo c r s v)) }

/-- Modelled from the spec: the source collaborator's `get_masked_index` —
per-vertex flag marking the vertices reached by a masked source within the
radius. -/
def get_masked_index (srcs : List BrainSource) (verts : List Vec3) (r : Flt)
    (c : Bool) : List Bool :=
  verts.map (fun v => srcs.any (fun s => s.masked && contributesTo c r s v))

/-- The source collaborator's `is_masked` flag: some source is masked. -/
def sources_is_masked (srcs : List BrainSource) : Bool :=
  srcs.any (fun s => s.masked)

/-- Minimum of a masked array (`mod.min()` ignores masked entries; the value
on a fully masked array does not reach any claim and is fixed at 0). -/
def maskedMin (m : MaskedArray) : Flt :=
  listMinD (((m.data.zip m.mask).filter (fun p => !p.2)).map (fun p => p.1))

/-- Maximum of a masked array over its unmasked entries. -/
def maskedMax (m : MaskedArray) : Flt :=
  listMaxD (((m.data.zip m.mask).filter (fun p => !p.2)).map (fun p => p.1))

/-- Mesh collaborator state: the vertex array plus the mutable mask,
mask-color and color buffers written by the projection (§6). -/
structure BrainMeshState where
  vertices : List Vec3
  mask : List Flt
  mask_color : Rgba
  color : List Rgba
deriving DecidableEq, Repr

/-- A registered object of the `{id: object}` mapping, exposing a mesh. -/
structure ProjObjEntry where
  mesh : BrainMeshState
deriving DecidableEq, Repr

/-- Lookup in the registered-object mapping (`self._proj_obj`, a dict with
unique keys, embedded as an association list). -/
def assocFind (l : List (String × ProjObjEntry)) (k : String) :
    Option ProjObjEntry :=
  match l with
  | [] => none
  | p :: ps => if p.1 = k then some p.2 else assocFind ps k

/-- Replacement of the entry at a key of the registered-object mapping. -/
def assocUpdate (l : List (String × ProjObjEntry)) (k : String)
    (v : ProjObjEntry) : List (String × ProjObjEntry) :=
  l.map (fun p => if p.1 = k then (p.1, v) else p)

/-- State of the `Projections` mixin together with its collaborators: the
registered-object mapping, the projection parameters, the source set, and
the colorbar object whose `to_kwargs` configures the coloring. -/
structure ProjState where
  proj_obj : List (String × ProjObjEntry)
  proj_radius : Flt
  proj_on : String
  proj_type : String
  proj_contribute : Bool
  proj_mask_color : Rgba
  proj_data : Option MaskedArray
  vsh : Option Nat
  sources : SourcesState
  cb_projection : CbarBase
deriving DecidableEq, Repr

/-- Modelled from the spec: evaluation of a named colormap at a normalized
position; the palette contents live in an external plotting library and are
represented by fixed ramps. -/
def cmapFun (name : String) (t : Flt) : Rgba :=
  if name = "inferno" then (t, t.div 2, 0, 1) else (t, t, t, 1)

/-- Embeds `Projections._get_obj_vertices`: the registered object's mesh
vertices, or a `ValueError` whose message lists the registered ids. -/
def get_obj_vertices (s : ProjState) (obj : String) :
    Except String (List Vec3) :=
  match assocFind s.proj_obj obj with
  | some o => .ok o.mesh.vertices
  | none => .error (obj ++ " not found. Use : "
      ++ String.intercalate ", " (s.proj_obj.map (fun p => p.1)))

/-- The modulation array computed by `_run_source_projection` step 3,
dispatching on the projection type. -/
def projModArray (s : ProjState) (v : List Vec3) : MaskedArray :=
  if s.proj_type = "activity" then
    project_modulation s.sources.sources v s.proj_radius s.proj_contribute
  else
    project_repartition s.sources.sources v s.proj_radius s.proj_contribute

/-- Embeds the mask construction of `_run_source_projection`: start from
`np.zeros(len(mesh))`; when the source set is masked set 2 at the
masked-reached vertices; when the modulation mask has any `True` entry set 1
at every vertex whose modulation entry is valid (`mask[~mod.mask] = 1.`). -/
def buildProjMask (n : Nat) (isMasked : Bool) (maskIdx : List Bool)
    (modMask : List Bool) : List Flt :=
  let m0 : List Flt := List.replicate n 0
  let m1 := if isMasked then
      (maskIdx.zip m0).map (fun p => if p.1 then 2 else p.2)
    else m0
  if modMask.any id then
    (modMask.zip m1).map (fun p => if p.1 then p.2 else 1)
  else m1

/-- Embeds `Projections._run_source_projection` followed by
`_projection_to_color`, returning the state as mutated up to completion or
up to the raise point, plus the raised error if any. -/
def run_source_projection (s : ProjState) : ProjState × Option String :=
  if s.proj_type = "activity" ∨ s.proj_type = "repartition" then
    let s1 : ProjState := { s with proj_data := none }
    match assocFind s1.proj_obj s1.proj_on with
    | none =>
        (s1, some (s1.proj_on ++ " not found. Use : "
            ++ String.intercalate ", " (s1.proj_obj.map (fun p => p.1))))
    | some obj =>
        let v := obj.mesh.vertices
        let mod := projModArray s1 v
        let isM := sources_is_masked s1.sources.sources
        let midx := get_masked_index s1.sources.sources v s1.proj_radius
            s1.proj_contribute
        let mask := buildProjMask v.length isM midx mod.mask
        let mesh1 : BrainMeshState :=
          { vertices := obj.mesh.vertices,
            mask := mask,
            mask_color := if isM then s1.proj_mask_color
              else obj.mesh.mask_color,
            color := array2colormap cmapFun s1.cb_projection.to_kwargs
              mod.data }
        ({ s1 with
            vsh := some v.length,
            proj_data := some mod,
            sources := { s1.sources with
              minmax := some (maskedMin mod, maskedMax mod) },
            proj_obj := assocUpdate s1.proj_obj s1.proj_on ⟨mesh1⟩ }, none)
  else (s, some "AssertionError: project type")

/-- A concrete colorbar configuration (the `CbarBase.__init__` defaults). -/
def cbarA : CbarBase :=
  { cmap := some "viridis", clim := some (0, 1), vmin := none, vmax := none,
    under := some (.named "gray"), over := some (.named "red"), cblabel := "",
    cbtxtsz := 26, cbtxtsh := ⟨23, 10⟩, txtcolor := .named "white",
    txtsz := 20, txtsh := ⟨6, 5⟩, limtxt := true, name := "Colorbar",
    bgcolor := .rgba (⟨1, 10⟩, ⟨1, 10⟩, ⟨1, 10⟩, 1), border := true, bw := 2,
    ndigits := 2, width := ⟨7, 50⟩, minmax := some (0, 1) }

/-- A concrete projection state: one registered mesh of four collinear
vertices and one unmasked source two units away from the first vertex only,
radius 1 — the spec §8 scenario in which no vertex is reached. -/
def projStateA : ProjState :=
  { proj_obj := [("brain",
      ⟨{ vertices := [⟨0, 0, 0⟩, ⟨10, 0, 0⟩, ⟨20, 0, 0⟩, ⟨30, 0, 0⟩],
         mask := [], mask_color := (0, 0, 0, 1), color := [] }⟩)],
    proj_radius := 1, proj_on := "brain", proj_type := "repartition",
    proj_contribute := true, proj_mask_color := namedColor "gray",
    proj_data := none, vsh := none,
    sources := { sources := [⟨⟨0, 0, 2⟩, 1, false⟩], minmax := none },
    cb_projection := cbarA }

/-- The same scene with radius 3: the source reaches the first vertex, and a
second, masked source reaches the second vertex. -/
def projStateB : ProjState :=
  { projStateA with
    proj_radius := 3,
    sources := { sources := [⟨⟨0, 0, 2⟩, 1, false⟩, ⟨⟨10, 0, 2⟩, 5, true⟩],
                 minmax := none } }

/-! ### ROI volume and localization (`visbrain/objects/roi_obj.py`) -/

/-- A numpy integer array of arbitrary rank: a shape plus flat C-order
data. -/
structure NDArray where
  shape : List Nat
  data : List Int
deriving DecidableEq, Repr

/-- Python indexing of one dimension: a nonnegative index below the size
resolves to itself, a negative index at least `-size` resolves from the end,
anything else is an IndexError (`none`). -/
def pyIdx (size : Nat) (i : Int) : Option Nat :=
  if 0 ≤ i ∧ i < (size : Int) then some i.toNat
  else if -(size : Int) ≤ i ∧ i < 0 then some (i + size).toNat
  else none

/-- Element `a[i, j, k]` of a 3-d numpy array under Python index semantics;
`none` is an IndexError. -/
def NDArray.get3 (a : NDArray) (i j k : Int) : Option Int :=
  match a.shape with
  | [d0, d1, d2] =>
    match pyIdx d0 i, pyIdx d1 j, pyIdx d2 k with
    | some x, some y, some z => some (a.data.getD ((x * d1 + y) * d2 + z) 0)
    | _, _, _ => none
  | _ => none

/-- Shape of a rectangular 2-d numpy array given as nested lists. -/
def matShape (m : List (List Flt)) : Nat × Nat :=
  (m.length, (m.headD []).length)

/-- The identity affine `np.eye(4)`. -/
def eye4 : List (List Flt) :=
  [[1, 0, 0, 0], [0, 1, 0, 0], [0, 0, 1, 0], [0, 0, 0, 1]]

/-- One row of the localization table `self.analysis`. A cell is absent
(pandas NaN), or holds a number, or — after `replace_bad` — a string. -/
structure ARow where
  text : Option String
  label : Option String
  rindex : Option (Int ⊕ String)
  x : Option (Int ⊕ String)
  y : Option (Int ⊕ String)
  z : Option (Int ⊕ String)
deriving DecidableEq, Repr

/-- State of `RoiObj`: the per-atlas index offset, the labeled volume, the
ROI count, the affine, the coordinate system, the reference table (label and
index columns) and the localization table. -/
structure RoiState where
  offset : Int
  vol : NDArray
  n_roi : Nat
  hdr : List (List Flt)
  system : String
  ref : List (String × Int)
  analysis : List ARow
deriving DecidableEq, Repr

/-- Embeds `RoiObj.change_roi_object` for caller-supplied atlases, returning
the state as mutated up to the raise point plus the raised error. The
predefined-atlas branch (`load_predefined_roi`, external data files absent
from the sources) is reported as unmodelled and never taken below. -/
def change_roi_object (s : RoiState) (name : String) (vol : NDArray)
    (label : List String) (index : List Int) (hdr : Option (List (List Flt)))
    (system : String) : RoiState × Option String :=
  if name = "brodmann" ∨ name = "talairach" ∨ name = "aal" then
    (s, some "unmodelled: predefined atlas")
  else
    let s := { s with offset := if name = "talairach" then -1 else 0 }
    if vol.shape.length ≠ 3 then (s, some "AssertionError: vol.ndim == 3")
    else if index.length ≠ label.length then
      (s, some "AssertionError: len(index) == len(label)")
    else
      let s := { s with vol := vol, n_roi := index.length }
      let s := { s with hdr := hdr.getD eye4 }
      if matShape s.hdr ≠ (4, 4) then
        (s, some "AssertionError: hdr.shape == (4, 4)")
      else if ¬(system = "mni" ∨ system = "tal") then
        (s, some "AssertionError: system")
      else
        ({ s with system := system, ref := label.zip index, analysis := [] },
         none)

/-- The voxel of a query point: the rounded least-squares solution of
`hdr · x = [p; 1]`. This embedding covers the identity affine (`np.eye(4)`,
the default), where the solution is the point itself and integer world
coordinates are fixed by rounding; every theorem below pins `hdr = eye4`. -/
def roiVoxel (p : Int × Int × Int) : Int × Int × Int := p

/-- Modelled from the spec: the MNI-to-Talairach conversion (`mni2tal`, an
external geometric utility, spec §4.3). It is never invoked below — every
theorem uses the MNI system — and is represented by the identity. -/
def mni2tal (p : Int × Int × Int) : Int × Int × Int := p

/-- Embeds `RoiObj.__ge__`: componentwise `shape >= idx`. Note: no lower
bound, and `>=` rather than `>` against the shape. -/
def roiGe (shape : List Nat) (idx : Int × Int × Int) : Bool :=
  decide (((shape.getD 0 0 : Nat) : Int) ≥ idx.1) &&
    decide (((shape.getD 1 0 : Nat) : Int) ≥ idx.2.1) &&
    decide (((shape.getD 2 0 : Nat) : Int) ≥ idx.2.2)

/-- Embeds `RoiObj._find_roi_label`: the first reference row whose index
column matches the volume value, if any. -/
def find_roi_label (ref : List (String × Int)) (volIdx : Int) :
    Option (String × Int) :=
  (ref.filter (fun r => r.2 = volIdx)).head?

/-- The row written by `self.analysis.loc[k] = location`: the located label
columns; every column absent from the located row becomes NaN. -/
def locRow (location : Option (String × Int)) : ARow :=
  { text := none, label := location.map (fun r => r.1),
    rindex := location.map (fun r => .inl r.2),
    x := none, y := none, z := none }

/-- `rows.loc[k] = r` for `k ≤ rows.length`: replace row `k` or append. -/
def locSet (rows : List ARow) (k : Nat) (r : ARow) : List ARow :=
  if k < rows.length then rows.set k r else rows ++ [r]

/-- The per-point loop of `localize_sources`: bound-check with `self >= sub`,
look up the label inside, mark `None` outside; a voxel access outside the
Python index range aborts the call with an IndexError. -/
def roiLocateLoop (s : RoiState) (rows : List ARow) (k : Nat) :
    List (Int × Int × Int) → List ARow × Option String
  | [] => (rows, none)
  | p :: ps =>
    let sub := roiVoxel p
    if roiGe s.vol.shape sub then
      match s.vol.get3 sub.1 sub.2.1 sub.2.2 with
      | none => (rows, some "IndexError")
      | some xv =>
        roiLocateLoop s (locSet rows k (locRow
          (find_roi_label s.ref (xv + s.offset)))) (k + 1) ps
    else
      roiLocateLoop s (locSet rows k (locRow none)) (k + 1) ps

/-- `df[col] = values` for a whole pandas column: `ValueError` when the
value list length differs from the table length, else a rowwise update. -/
def setColumn {α : Type} (rows : List ARow) (vals : List α)
    (f : ARow → α → ARow) : Except String (List ARow) :=
  if vals.length = rows.length then .ok (List.zipWith f rows vals)
  else .error "ValueError: Length of values does not match length of index"

/-- One row of `df.fillna(w)`: every NaN cell becomes the replacement. -/
def fillnaRow (w : String) (r : ARow) : ARow :=
  { text := some (r.text.getD w), label := some (r.label.getD w),
    rindex := some (r.rindex.getD (.inr w)), x := some (r.x.getD (.inr w)),
    y := some (r.y.getD (.inr w)), z := some (r.z.getD (.inr w)) }

/-- One mixed cell of `df.replace(pat, w)`. -/
def replaceCellI (pat : Int ⊕ String) (w : String) (c : Int ⊕ String) :
    Int ⊕ String :=
  if c = pat then .inr w else c

/-- One string cell of `df.replace(pat, w)` (an integer pattern never
matches a string cell). -/
def replaceCellS (pat : Int ⊕ String) (w : String) (c : String) : String :=
  match pat with
  | .inr p => if c = p then w else c
  | .inl _ => c

/-- One row of `df.replace(pat, w)`. -/
def replaceRow (pat : Int ⊕ String) (w : String) (r : ARow) : ARow :=
  { text := r.text.map (replaceCellS pat w),
    label := r.label.map (replaceCellS pat w),
    rindex := r.rindex.map (replaceCellI pat w),
    x := r.x.map (replaceCellI pat w),
    y := r.y.map (replaceCellI pat w),
    z := r.z.map (replaceCellI pat w) }

/-- The default `bad_patterns` of `localize_sources`:
`[-1, 'undefined', 'None']`. -/
def defaultBadPatterns : List (Int ⊕ String) :=
  [.inl (-1), .inr "undefined", .inr "None"]

/-- Embeds `RoiObj.localize_sources` (identity affine; see `roiVoxel`),
returning the final state plus the raised error if any; on success the
returned table is the final `analysis`. -/
def localize_sources (s : RoiState) (xyz : List (Int × Int × Int))
    (source_name : Option (List String)) (replace_bad : Bool)
    (bad_patterns : List (Int ⊕ String)) (replace_with : String) :
    RoiState × Option String :=
  let n := xyz.length
  let pts := if s.system = "tal" then xyz.map mni2tal else xyz
  let names := source_name.getD
    ((List.range n).map (fun k => "s" ++ toString k))
  if names.length ≠ n then (s, some "AssertionError: len(source_name)")
  else
    match roiLocateLoop s s.analysis 0 pts with
    | (rows, some e) => ({ s with analysis := rows }, some e)
    | (rows, none) =>
      match setColumn rows names (fun r nm => { r with text := some nm }) with
      | .error e => ({ s with analysis := rows }, some e)
      | .ok rows1 =>
        let rows2 := List.zipWith (fun r (p : Int × Int × Int) =>
          { r with x := some (.inl p.1), y := some (.inl p.2.1),
                   z := some (.inl p.2.2) }) rows1 pts
        let rows3 := if replace_bad then
            bad_patterns.foldl
              (fun acc pat => acc.map (replaceRow pat replace_with))
              (rows2.map (fillnaRow replace_with))
          else rows2
        ({ s with analysis := rows3 }, none)

/-- The row the localization loop writes for one query point: inside the
`self >= sub` check, the label row found at the (offset-corrected) voxel
value; outside it, all NaN. -/
def locResult (s : RoiState) (p : Int × Int × Int) : ARow :=
  let sub := roiVoxel p
  if roiGe s.vol.shape sub then
    locRow ((s.vol.get3 sub.1 sub.2.1 sub.2.2).bind
      (fun xv => find_roi_label s.ref (xv + s.offset)))
  else locRow none

/-- A query point that cannot trip the unchecked IndexError of the loop:
either the `self >= sub` check fails, or the voxel access succeeds. -/
def locSafe (s : RoiState) (p : Int × Int × Int) : Prop :=
  roiGe s.vol.shape (roiVoxel p) = true →
    (s.vol.get3 (roiVoxel p).1 (roiVoxel p).2.1 (roiVoxel p).2.2).isSome

/-- The final table row of `localize_sources` (defaults: `replace_bad` with
the default patterns and sentinel) for one (point, name) pair: the located
row, the name and world coordinates filled in, then `fillna` and the bad
patterns applied. -/
def localRowFinal (s : RoiState) (pn : (Int × Int × Int) × String) : ARow :=
  let r0 := locResult s pn.1
  defaultBadPatterns.foldl
    (fun rr pat => replaceRow pat "Not found" rr)
    (fillnaRow "Not found"
      { r0 with text := some pn.2,
                x := some (.inl pn.1.1), y := some (.inl pn.1.2.1),
                z := some (.inl pn.1.2.2) })

/-- A triangular face: three vertex indices. -/
abbrev Face := Nat × Nat × Nat

/-- The largest vertex index of one face. -/
def faceKey (f : Face) : Nat := Nat.max f.1 (Nat.max f.2.1 f.2.2)

/-- `faces.max()` over a face array (0 for the empty array; the code only
reads it when the accumulated array is nonempty). -/
def facesMax (fs : List Face) : Nat :=
  fs.foldl (fun m f => Nat.max m (faceKey f)) 0

/-- `f + o` on a face array: every index shifted by the offset. -/
def shiftFace (o : Nat) (f : Face) : Face :=
  (f.1 + o, f.2.1 + o, f.2.2 + o)

/-- One level's isosurface output, `(vertices, faces)` as returned by
`RoiObj._get_roi_vertices` (the marching-cubes isosurface routine is
external and its output is supplied as data). -/
abbrev LevelMesh := List Vec3 × List Face

/-- One iteration of the `unique_color` loop of `RoiObj.get_roi_vertices`:
`faces = np.r_[faces, f + faces.max() + 1] if faces.size else f`,
`vert = np.r_[vert, v] if vert.size else v`, and the level color tiled over
the level's vertices and appended the same way. -/
def concatStep (acc : List Vec3 × List Face × List Rgba)
    (lc : LevelMesh × Rgba) : List Vec3 × List Face × List Rgba :=
  let faces1 := if acc.2.1.length ≠ 0 then
      acc.2.1 ++ lc.1.2.map (shiftFace (facesMax acc.2.1 + 1))
    else lc.1.2
  let vert1 := if acc.1.length ≠ 0 then acc.1 ++ lc.1.1 else lc.1.1
  let col := List.replicate lc.1.1.length lc.2
  let color1 := if acc.2.2.length ≠ 0 then acc.2.2 ++ col else col
  (vert1, faces1, color1)

/-- Embeds the `unique_color` branch of `RoiObj.get_roi_vertices`: the
per-level colors (alpha forced to 1, as `col_unique[..., -1] = 1.` does) are
zipped with the per-level isosurface outputs and folded through the
concatenation loop. -/
def concatLevels (levels : List LevelMesh) (cols : List Rgba) :
    List Vec3 × List Face × List Rgba :=
  (levels.zip (cols.map (fun c => (c.1, c.2.1, c.2.2.1, (1 : Flt))))).foldl
    concatStep ([], [], [])

/-- The claim's concatenation of faces: each level's faces shifted by the
total number of vertices contributed by the preceding levels. -/
def specConcatFaces : List LevelMesh → List Face
  | [] => []
  | l :: ls => l.2 ++ (specConcatFaces ls).map (shiftFace l.1.length)

/-- The claim's color array: each level's color tiled over its vertices. -/
def specColors (levels : List LevelMesh) (colsA : List Rgba) : List Rgba :=
  ((levels.zip colsA).map
    (fun lc => List.replicate lc.1.1.length lc.2)).flatten

/-- A well-formed nonempty isosurface level: vertices and faces are
nonempty and the faces reference exactly the index range of the vertex
array (`faces.max() + 1 == len(vertices)`, as marching-cubes output does,
every vertex being a face corner). -/
def goodLevel (l : LevelMesh) : Prop :=
  l.1 ≠ [] ∧ l.2 ≠ [] ∧ facesMax l.2 + 1 = l.1.length

instance (l : LevelMesh) : Decidable (goodLevel l) :=
  inferInstanceAs (Decidable (_ ∧ _ ∧ _))

/-- Two well-formed isosurface levels (each level's faces reference its
full vertex range) for the concatenation witness. -/
def lvlsW : List LevelMesh :=
  [([⟨0, 0, 0⟩, ⟨1, 0, 0⟩], [(0, 1, 0)]), ([⟨2, 0, 0⟩], [(0, 0, 0)])]

/-- Two distinct level colors for the concatenation witness. -/
def colsW : List Rgba := [(1, 0, 0, 1), (0, 1, 0, ⟨1, 2⟩)]

/-- A concrete ROI state: a 1×1×1 volume holding the value 5 and one
reference row ("A", 5). -/
def roiStateA : RoiState :=
  { offset := 0, vol := { shape := [1, 1, 1], data := [5] }, n_roi := 1,
    hdr := eye4, system := "mni", ref := [("A", 5)], analysis := [] }

/-- A 2×2×2 all-ones volume. -/
def roiVolB : NDArray :=
  { shape := [2, 2, 2], data := [1, 1, 1, 1, 1, 1, 1, 1] }

/-- The radius-1 scene pointed at an unregistered target id. -/
def projStateC : ProjState := { projStateA with proj_on := "roi" }

/-- A registered object with an empty mesh (used as a lookup fallback). -/
def emptyEntry : ProjObjEntry :=
  ⟨{ vertices := [], mask := [], mask_color := (0, 0, 0, 1), color := [] }⟩

end Visbrain

namespace Visbrain

theorem assocFind_update_self (l : List (String × ProjObjEntry)) (k : String)
    (v o : ProjObjEntry) (h : assocFind l k = some o) :
    assocFind (assocUpdate l k v) k = some v := by
  induction l with
  | nil => simp [assocFind] at h
  | cons p ps ih =>
    by_cases hp : p.1 = k
    · simp [assocFind, assocUpdate, hp]
    · simp only [assocFind, assocUpdate, List.map_cons, if_neg hp] at h ⊢
      simpa [assocUpdate] using ih h

theorem assocUpdate_idem (l : List (String × ProjObjEntry)) (k : String)
    (v : ProjObjEntry) :
    assocUpdate (assocUpdate l k v) k v = assocUpdate l k v := by
  induction l with
  | nil => rfl
  | cons p ps ih =>
    by_cases hp : p.1 = k <;>
      simp [assocUpdate, hp, ih] <;>
      simp [assocUpdate] at ih <;> exact ih

theorem assocUpdate_map_fst (l : List (String × ProjObjEntry)) (k : String)
    (v : ProjObjEntry) :
    (assocUpdate l k v).map (fun p => p.1) = l.map (fun p => p.1) := by
  induction l with
  | nil => rfl
  | cons p ps ih =>
    by_cases hp : p.1 = k <;> simp [assocUpdate, hp] <;>
      simpa [assocUpdate] using ih

theorem zip_replicate_mask (midx : List Bool) :
    (midx.zip (List.replicate midx.length (0 : Flt))).map
        (fun p => if p.1 then 2 else p.2)
      = midx.map (fun a => if a then (2 : Flt) else 0) := by
  induction midx with
  | nil => rfl
  | cons a as ih => simpa [List.replicate_succ] using ih

theorem zipWith_left_only (g : Bool → Flt) (xs ys : List Bool)
    (h : xs.length = ys.length) :
    List.zipWith (fun a _ => g a) xs ys = xs.map g := by
  induction xs generalizing ys with
  | nil => simp
  | cons a as ih =>
    cases ys with
    | nil => simp at h
    | cons b bs =>
      simp only [List.length_cons, Nat.succ.injEq] at h
      simp [ih bs h]

theorem zip_map_overwrite (g : Bool → Flt) (ms xs : List Bool)
    (h : xs.length = ms.length) :
    (ms.zip (xs.map g)).map (fun p => if p.1 then p.2 else (1 : Flt))
      = List.zipWith (fun a b => if b then g a else 1) xs ms := by
  induction ms generalizing xs with
  | nil => cases xs <;> simp at h ⊢
  | cons m msr ih =>
    cases xs with
    | nil => simp at h
    | cons x xsr =>
      simp only [List.length_cons, Nat.succ.injEq] at h
      simp [ih xsr h]

theorem buildProjMask_eq_zipWith (isM : Bool) (midx modMask : List Bool)
    (h : midx.length = modMask.length) :
    buildProjMask midx.length isM midx modMask
      = List.zipWith
          (fun a b => if modMask.any id && !b then (1 : Flt)
            else if isM && a then 2 else 0)
          midx modMask := by
  simp only [buildProjMask]
  have hm1 : (if isM then
        (midx.zip (List.replicate midx.length (0 : Flt))).map
          (fun p => if p.1 then 2 else p.2)
      else List.replicate midx.length 0)
      = midx.map (fun a => if isM && a then (2 : Flt) else 0) := by
    cases isM
    · simp [List.map_const']
    · simpa using zip_replicate_mask midx
  rw [hm1]
  cases hA : modMask.any id
  · simp only [Bool.false_and, Bool.false_eq_true, if_false]
    exact (zipWith_left_only _ midx modMask h).symm
  · simp only [Bool.true_and]
    rw [zip_map_overwrite _ modMask midx h]
    have hpt : ∀ (a b : Bool),
        (if b then (if isM && a then (2 : Flt) else 0) else 1)
          = (if !b then (1 : Flt) else if isM && a then 2 else 0) := by
      intro a b; cases b <;> rfl
    simp only [hpt]
    simp

theorem locSet_append (rows : List ARow) (r : ARow) :
    locSet rows rows.length r = rows ++ [r] := by
  simp [locSet]

theorem roiLocateLoop_safe (s : RoiState) (pts : List (Int × Int × Int))
    (rows : List ARow) (hsafe : ∀ p ∈ pts, locSafe s p) :
    roiLocateLoop s rows rows.length pts
      = (rows ++ pts.map (locResult s), none) := by
  induction pts generalizing rows with
  | nil => simp [roiLocateLoop]
  | cons p ps ih =>
    have hp := hsafe p (by simp)
    have hrest : ∀ q ∈ ps, locSafe s q := fun q hq => hsafe q (by simp [hq])
    by_cases hge : roiGe s.vol.shape (roiVoxel p) = true
    · rcases hx : s.vol.get3 (roiVoxel p).1 (roiVoxel p).2.1
          (roiVoxel p).2.2 with _ | xv
      · exact absurd (hp hge) (by simp [hx])
      · simp only [roiLocateLoop, hge, if_true, hx, locSet_append]
        have hk : rows.length + 1 = (rows ++ [locRow
            (find_roi_label s.ref (xv + s.offset))]).length := by simp
        rw [hk, ih _ hrest]
        simp [locResult, hge, hx, List.append_assoc]
    · simp only [roiLocateLoop, hge, Bool.false_eq_true, if_false,
        locSet_append]
      have hk : rows.length + 1 = (rows ++ [locRow none]).length := by simp
      rw [hk, ih _ hrest]
      simp [locResult, hge, List.append_assoc]

theorem zipWith_eq_map_zip {α β γ : Type} (f : α → β → γ) (as : List α)
    (bs : List β) :
    List.zipWith f as bs = (as.zip bs).map (fun p => f p.1 p.2) := by
  induction as generalizing bs with
  | nil => simp
  | cons a as ih =>
    cases bs with
    | nil => simp
    | cons b bs => simp [ih]

theorem mem_zip_left {α β : Type} {as : List α} {bs : List β}
    {p : α × β} (h : p ∈ as.zip bs) : p.1 ∈ as := by
  induction as generalizing bs with
  | nil => simp at h
  | cons a as ih =>
    cases bs with
    | nil => simp at h
    | cons b bs =>
      simp only [List.zip_cons_cons, List.mem_cons] at h
      rcases h with rfl | h
      · exact List.mem_cons_self _ _
      · exact List.mem_cons_of_mem _ (ih h)

theorem zipWith_map_fst {α β γ δ : Type} (f : δ → β → γ) (g : α → δ)
    (as : List α) (bs : List β) :
    List.zipWith f (as.map g) bs = (as.zip bs).map (fun p => f (g p.1) p.2) := by
  induction as generalizing bs with
  | nil => simp
  | cons a as ih => cases bs <;> simp [ih]

theorem zipWith_map_left_self {β γ : Type} (f : γ → (Int × Int × Int) → γ)
    (h : (Int × Int × Int) × β → γ) (pts : List (Int × Int × Int))
    (names : List β) :
    List.zipWith f ((pts.zip names).map h) pts
      = (pts.zip names).map (fun pn => f (h pn) pn.1) := by
  induction pts generalizing names with
  | nil => simp
  | cons p ps ih =>
    cases names with
    | nil => simp
    | cons nm names => simp [ih]

theorem foldl_map_replace (bad : List (Int ⊕ String)) (w : String)
    (base : List ARow) :
    bad.foldl (fun acc pat => acc.map (replaceRow pat w)) base
      = base.map (fun r => bad.foldl (fun rr pat => replaceRow pat w rr) r) := by
  induction bad generalizing base with
  | nil => simp
  | cons pat bad ih =>
    simp only [List.foldl_cons, ih, List.map_map]
    rfl

theorem localize_sources_closed (s : RoiState) (pts : List (Int × Int × Int))
    (source_name : Option (List String)) (names : List String)
    (hnames : names = source_name.getD
      ((List.range pts.length).map (fun k => "s" ++ toString k)))
    (hsys : s.system = "mni") (hana : s.analysis = [])
    (hlen : names.length = pts.length)
    (hsafe : ∀ p ∈ pts, locSafe s p) :
    localize_sources s pts source_name true defaultBadPatterns "Not found"
      = ({ s with analysis := (pts.zip names).map (localRowFinal s) },
         none) := by
  have htal : ¬(s.system = "tal") := by rw [hsys]; decide
  have hsc : setColumn (pts.map (locResult s)) names
      (fun r nm => { r with text := some nm })
      = .ok (List.zipWith (fun r nm => { r with text := some nm })
          (pts.map (locResult s)) names) := by
    rw [setColumn, if_pos (by simp [hlen])]
  simp only [localize_sources, if_neg htal, ← hnames]
  rw [if_neg (by simp [hlen])]
  have h0 : (0 : Nat) = s.analysis.length := by rw [hana]; rfl
  rw [h0, roiLocateLoop_safe s pts s.analysis hsafe, hana]
  simp only [List.nil_append, hsc]
  rw [zipWith_map_fst, zipWith_map_left_self, foldl_map_replace]
  simp only [List.map_map]
  rfl

theorem mem_zip_right {α β : Type} {as : List α} {bs : List β}
    {p : α × β} (h : p ∈ as.zip bs) : p.2 ∈ bs := by
  induction as generalizing bs with
  | nil => simp at h
  | cons a as ih =>
    cases bs with
    | nil => simp at h
    | cons b bs =>
      simp only [List.zip_cons_cons, List.mem_cons] at h
      rcases h with rfl | h
      · exact List.mem_cons_self _ _
      · exact List.mem_cons_of_mem _ (ih h)

theorem localRowFinal_label_sentinel (s : RoiState)
    (pn : (Int × Int × Int) × String)
    (h : roiGe s.vol.shape (roiVoxel pn.1) = false) :
    (localRowFinal s pn).label = some "Not found" ∧
    (localRowFinal s pn).rindex = some (.inr "Not found") := by
  have hloc : locResult s pn.1 = locRow none := by
    simp [locResult, h]
  simp only [localRowFinal, hloc]
  constructor <;> rfl

theorem localRowFinal_text (s : RoiState) (pn : (Int × Int × Int) × String)
    (h1 : pn.2 ≠ "undefined") (h2 : pn.2 ≠ "None") :
    (localRowFinal s pn).text = some pn.2 := by
  simp [localRowFinal, fillnaRow, defaultBadPatterns, replaceRow,
    replaceCellS, h1, h2]

theorem natMax_eq_right {a b : Nat} (h : a ≤ b) : Nat.max a b = b := by
  simp [Nat.max_def, h]

theorem natMax_assoc (a b c : Nat) :
    Nat.max (Nat.max a b) c = Nat.max a (Nat.max b c) :=
  Nat.max_assoc a b c

theorem foldl_max_init (fs : List Face) (i : Nat) :
    fs.foldl (fun m f => Nat.max m (faceKey f)) i
      = Nat.max i (facesMax fs) := by
  induction fs generalizing i with
  | nil =>
    simp only [List.foldl_nil, facesMax, Nat.max_def]
    split <;> omega
  | cons f fs ih =>
    simp only [List.foldl_cons]
    rw [ih]
    have h2 : facesMax (f :: fs) = Nat.max (faceKey f) (facesMax fs) := by
      simp only [facesMax, List.foldl_cons]
      rw [ih, show Nat.max 0 (faceKey f) = faceKey f from by
        simp [Nat.max_def]]
      rfl
    rw [h2]
    exact natMax_assoc i (faceKey f) (facesMax fs)

theorem facesMax_cons (f : Face) (fs : List Face) :
    facesMax (f :: fs) = Nat.max (faceKey f) (facesMax fs) := by
  simp only [facesMax, List.foldl_cons]
  rw [foldl_max_init, show Nat.max 0 (faceKey f) = faceKey f from by
    simp [Nat.max_def]]
  rfl

theorem facesMax_append (a b : List Face) :
    facesMax (a ++ b) = Nat.max (facesMax a) (facesMax b) := by
  simp only [facesMax, List.foldl_append]
  rw [foldl_max_init]
  rfl

theorem faceKey_shift (o : Nat) (f : Face) :
    faceKey (shiftFace o f) = faceKey f + o := by
  simp only [faceKey, shiftFace, Nat.max_def]
  split <;> split <;> split <;> split <;> omega

theorem facesMax_map_shift (o : Nat) (fs : List Face) (h : fs ≠ []) :
    facesMax (fs.map (shiftFace o)) = facesMax fs + o := by
  induction fs with
  | nil => cases h rfl
  | cons f fs ih =>
    cases fs with
    | nil =>
      simp only [List.map_cons, List.map_nil, facesMax_cons, faceKey_shift]
      simp only [facesMax, List.foldl_nil, Nat.max_def]
      split <;> split <;> omega
    | cons g gs =>
      rw [List.map_cons, facesMax_cons, faceKey_shift, ih (by simp)]
      rw [facesMax_cons f (g :: gs)]
      simp only [Nat.max_def]
      split <;> split <;> omega

theorem faceKey_le_facesMax {f : Face} {fs : List Face} (h : f ∈ fs) :
    faceKey f ≤ facesMax fs := by
  induction fs with
  | nil => simp at h
  | cons g gs ih =>
    rw [facesMax_cons]
    rcases List.mem_cons.1 h with rfl | h
    · exact Nat.le_max_left _ _
    · exact le_trans (ih h) (Nat.le_max_right _ _)

theorem shiftFace_comp (a b : Nat) (f : Face) :
    shiftFace a (shiftFace b f) = shiftFace (a + b) f := by
  simp only [shiftFace, Prod.mk.injEq]
  omega

theorem concat_fold_closed (levels : List LevelMesh) (colsA : List Rgba)
    (vert : List Vec3) (faces : List Face) (color : List Rgba)
    (hv : vert ≠ []) (hf : faces ≠ []) (hc : color ≠ [])
    (hfm : facesMax faces + 1 = vert.length)
    (hlv : ∀ l ∈ levels, goodLevel l)
    (hlen : levels.length = colsA.length) :
    (levels.zip colsA).foldl concatStep (vert, faces, color)
      = (vert ++ (levels.map (fun l => l.1)).flatten,
         faces ++ (specConcatFaces levels).map (shiftFace vert.length),
         color ++ specColors levels colsA) := by
  induction levels generalizing colsA vert faces color with
  | nil => simp [specConcatFaces, specColors]
  | cons l ls ih =>
    cases colsA with
    | nil => simp at hlen
    | cons c cs =>
      obtain ⟨hgv, hgf, hgm⟩ := hlv l (by simp)
      have hlen' : ls.length = cs.length := by simpa using hlen
      simp only [List.zip_cons_cons, List.foldl_cons]
      have hstep : concatStep (vert, faces, color) (l, c)
          = (vert ++ l.1,
             faces ++ l.2.map (shiftFace vert.length),
             color ++ List.replicate l.1.length c) := by
        simp only [concatStep]
        rw [if_pos (by simpa using hv), if_pos (by simpa using hf),
          if_pos (by simpa using hc), hfm]
      rw [hstep]
      have hfm' : facesMax (faces ++ l.2.map (shiftFace vert.length)) + 1
          = (vert ++ l.1).length := by
        rw [facesMax_append, facesMax_map_shift _ _ hgf,
          List.length_append,
          natMax_eq_right
            (by omega : facesMax faces ≤ facesMax l.2 + vert.length)]
        omega
      rw [ih cs (vert ++ l.1) (faces ++ l.2.map (shiftFace vert.length))
        (color ++ List.replicate l.1.length c) (by simp [hv])
        (by simp [hf]) (by simp [hc]) hfm'
        (fun q hq => hlv q (by simp [hq])) hlen']
      refine Prod.ext ?_ (Prod.ext ?_ ?_) <;> simp only
      · simp [List.append_assoc]
      · simp only [specConcatFaces, List.map_append, List.map_map,
          List.append_assoc, List.length_append]
        congr 2
        apply List.map_congr_left
        intro fc hfc
        simp only [Function.comp_apply, shiftFace_comp]
      · simp [specColors, List.append_assoc]

theorem specConcatFaces_lt (levels : List LevelMesh)
    (h : ∀ l ∈ levels, goodLevel l) :
    ∀ fc ∈ specConcatFaces levels,
      faceKey fc < ((levels.map (fun l => l.1)).flatten).length := by
  induction levels with
  | nil => simp [specConcatFaces]
  | cons l ls ih =>
    intro fc hfc
    obtain ⟨hgv, hgf, hgm⟩ := h l (by simp)
    simp only [specConcatFaces, List.mem_append] at hfc
    simp only [List.map_cons, List.flatten_cons, List.length_append]
    rcases hfc with hfc | hfc
    · have h1 := faceKey_le_facesMax hfc
      omega
    · obtain ⟨fc0, hfc0, rfl⟩ := List.mem_map.1 hfc
      have h1 := ih (fun q hq => h q (by simp [hq])) fc0 hfc0
      rw [faceKey_shift]
      omega

/-- The modulation validity mask is the same expression for both projection
types: a vertex is masked exactly when no source contributes to it. -/
theorem projModArray_mask (s : ProjState) (v : List Vec3) :
    (projModArray s v).mask
      = v.map (fun vert => !s.sources.sources.any
          (fun src => contributesTo s.proj_contribute s.proj_radius
            src vert)) := by
  rw [projModArray]
  split <;> rfl

/-- C4: the projection pass is idempotent — when `run_projection` succeeds
and produces state `s1`, running it again from `s1` succeeds and leaves the
whole state (in particular the target mesh's mask and color arrays)
unchanged. -/
theorem c4_run_projection_idempotent (s s1 : ProjState)
    (h : run_source_projection s = (s1, none)) :
    run_source_projection s1 = (s1, none) := by
  rw [run_source_projection] at h
  split at h
  case isFalse ht => simp at h
  case isTrue ht =>
    simp only at h
    rcases hf : assocFind s.proj_obj s.proj_on with _ | obj
    · rw [show assocFind ({ s with proj_data := none } : ProjState).proj_obj
          ({ s with proj_data := none } : ProjState).proj_on
          = none from hf] at h
      simp at h
    · rw [show assocFind ({ s with proj_data := none } : ProjState).proj_obj
          ({ s with proj_data := none } : ProjState).proj_on
          = some obj from hf] at h
      simp only [Prod.mk.injEq] at h
      obtain ⟨hs1, -⟩ := h
      subst hs1
      rw [run_source_projection]
      rw [if_pos ht]
      simp only
      rw [show ∀ x : ProjObjEntry,
          assocFind (assocUpdate s.proj_obj s.proj_on x) s.proj_on
            = some x from fun x => assocFind_update_self _ _ _ _ hf]
      simp only [projModArray]
      cases hM : sources_is_masked s.sources.sources <;>
        simp [hM, Prod.mk.injEq, assocUpdate_idem]

/-- C6: running the projection on a target id absent from the registered
mapping fails with a not-found error listing the registered ids and leaves
the registered objects (hence every mesh's mask and color buffers)
unmodified, while the lookup on a registered id returns that object's mesh
vertex array. -/
theorem c6_not_found_and_lookup (s : ProjState) (tid : String)
    (obj : ProjObjEntry) :
    (assocFind s.proj_obj s.proj_on = none →
      (s.proj_type = "activity" ∨ s.proj_type = "repartition") →
      run_source_projection s
        = ({ s with proj_data := none },
           some (s.proj_on ++ " not found. Use : "
             ++ String.intercalate ", " (s.proj_obj.map (fun p => p.1))))) ∧
    (assocFind s.proj_obj tid = some obj →
      get_obj_vertices s tid = .ok obj.mesh.vertices) := by
  constructor
  · intro hf ht
    rw [run_source_projection, if_pos ht]
    simp only
    rw [show assocFind ({ s with proj_data := none } : ProjState).proj_obj
        ({ s with proj_data := none } : ProjState).proj_on
        = none from hf]
  · intro hf
    rw [get_obj_vertices, hf]

/-- C1 counterexample: in the spec §8 radius-1 scenario (four collinear
vertices, one source two units away from the first vertex, radius 1) every
vertex is uncontributed — the modulation mask is all `True` — yet after
`run_projection` the target mesh's per-vertex mask is all zeros, not all
ones as the claim states: `mask[~mod.mask] = 1.` writes 1 at the vertices
whose modulation is valid, never at the uncontributed ones. -/
theorem c1_counterexample :
    (run_source_projection projStateA).2 = none ∧
    (run_source_projection projStateA).1.proj_data
      = some { data := [0, 0, 0, 0], mask := [true, true, true, true] } ∧
    (assocFind (run_source_projection projStateA).1.proj_obj "brain").map
        (fun o => o.mesh.mask) = some [0, 0, 0, 0] ∧
    ([(0 : Flt), 0, 0, 0] ≠ [1, 1, 1, 1]) := by
  exact ⟨by rfl, by rfl, by rfl, by decide⟩

/-- C1 amended: after a successful projection pass the target mesh's
per-vertex mask assigns 1 to every vertex with a contributing source
whenever at least one vertex has none (and this overwrites the
masked-affected value 2), else 2 to a vertex reached by a masked source when
the source set is masked, else 0. In particular, when no vertex receives any
contribution nothing is set to 1, so a fully uncontributed unmasked
projection leaves every vertex at 0. -/
theorem c1_amended_mask (s s1 : ProjState) (obj obj1 : ProjObjEntry)
    (h : run_source_projection s = (s1, none))
    (hobj : assocFind s.proj_obj s.proj_on = some obj)
    (hobj1 : assocFind s1.proj_obj s1.proj_on = some obj1) :
    obj1.mesh.mask = List.zipWith
      (fun a b => if (projModArray s obj.mesh.vertices).mask.any id && !b
          then (1 : Flt)
        else if sources_is_masked s.sources.sources && a then 2 else 0)
      (get_masked_index s.sources.sources obj.mesh.vertices s.proj_radius
        s.proj_contribute)
      (projModArray s obj.mesh.vertices).mask := by
  rw [run_source_projection] at h
  split at h
  case isFalse => simp at h
  case isTrue ht =>
    simp only at h
    rw [show assocFind ({ s with proj_data := none } : ProjState).proj_obj
        ({ s with proj_data := none } : ProjState).proj_on
        = some obj from hobj] at h
    simp only [Prod.mk.injEq] at h
    obtain ⟨hs1, -⟩ := h
    subst hs1
    simp only [assocFind_update_self _ _ _ _ hobj, Option.some.injEq]
      at hobj1
    subst hobj1
    simp only
    have hlen : (get_masked_index s.sources.sources obj.mesh.vertices
        s.proj_radius s.proj_contribute).length
        = obj.mesh.vertices.length := by
      simp [get_masked_index]
    have hlen2 : (get_masked_index s.sources.sources obj.mesh.vertices
        s.proj_radius s.proj_contribute).length
        = (projModArray s obj.mesh.vertices).mask.length := by
      rw [hlen, projModArray_mask]
      simp
    rw [show obj.mesh.vertices.length
        = (get_masked_index s.sources.sources obj.mesh.vertices
            s.proj_radius s.proj_contribute).length from hlen.symm]
    exact buildProjMask_eq_zipWith _ _ _ hlen2

/-- Witness for C4: a concrete successful projection (radius-3 scene with a
masked source) re-run from its own result state reproduces it exactly. -/
theorem c4_run_projection_idempotent_witness :
    run_source_projection (run_source_projection projStateB).1
      = ((run_source_projection projStateB).1, none) :=
  c4_run_projection_idempotent projStateB
    (run_source_projection projStateB).1 (by rfl)

/-- Witness for C6: on the concrete scene pointed at the unregistered id
"roi" the run fails with the listing error and only `_proj_data` changes,
and the lookup of the registered id "brain" returns its vertices. -/
theorem c6_not_found_and_lookup_witness :
    (run_source_projection projStateC
      = ({ projStateC with proj_data := none },
         some (projStateC.proj_on ++ " not found. Use : "
           ++ String.intercalate ", "
             (projStateC.proj_obj.map (fun p => p.1))))) ∧
    (get_obj_vertices projStateC "brain"
      = .ok [⟨0, 0, 0⟩, ⟨10, 0, 0⟩, ⟨20, 0, 0⟩, ⟨30, 0, 0⟩]) := by
  constructor
  · exact (c6_not_found_and_lookup projStateC "brain" emptyEntry).1
      (by rfl) (Or.inr rfl)
  · exact (c6_not_found_and_lookup projStateC "brain"
      ⟨{ vertices := [⟨0, 0, 0⟩, ⟨10, 0, 0⟩, ⟨20, 0, 0⟩, ⟨30, 0, 0⟩],
         mask := [], mask_color := (0, 0, 0, 1), color := [] }⟩).2 (by rfl)

/-- Witness for the amended C1 at the radius-3 masked scene. -/
theorem c1_amended_mask_witness :
    ((assocFind (run_source_projection projStateB).1.proj_obj
        (run_source_projection projStateB).1.proj_on).getD
          emptyEntry).mesh.mask
      = List.zipWith
          (fun a b => if (projModArray projStateB
              (((assocFind projStateB.proj_obj projStateB.proj_on).getD
                emptyEntry).mesh.vertices)).mask.any id && !b
            then (1 : Flt)
            else if sources_is_masked projStateB.sources.sources && a then 2
            else 0)
          (get_masked_index projStateB.sources.sources
            (((assocFind projStateB.proj_obj projStateB.proj_on).getD
              emptyEntry).mesh.vertices) projStateB.proj_radius
            projStateB.proj_contribute)
          (projModArray projStateB
            (((assocFind projStateB.proj_obj projStateB.proj_on).getD
              emptyEntry).mesh.vertices)).mask :=
  c1_amended_mask projStateB (run_source_projection projStateB).1
    ((assocFind projStateB.proj_obj projStateB.proj_on).getD emptyEntry)
    ((assocFind (run_source_projection projStateB).1.proj_obj
        (run_source_projection projStateB).1.proj_on).getD emptyEntry)
    (by rfl) (by rfl) (by rfl)

/-- C2 counterexample, on a 1×1×1 volume holding value 5 with reference row
("A", 5): the point (1, 0, 0) lies strictly outside the bounds (its first
component equals the dimension) yet passes the `self >= sub` check and the
voxel access raises IndexError; and the point (-1, 0, 0) (negative first
component) passes the check and looks up a label through Python negative
indexing, producing "A" rather than the "Not found" sentinel. -/
theorem c2_counterexample :
    (localize_sources roiStateA [(1, 0, 0)] none true defaultBadPatterns
        "Not found").2 = some "IndexError" ∧
    ((localize_sources roiStateA [(-1, 0, 0)] none true defaultBadPatterns
        "Not found").1.analysis.map (fun r => r.label)) = [some "A"] ∧
    some "A" ≠ some "Not found" := by
  exact ⟨by rfl, by rfl, by decide⟩

/-- C2 amended: for every query point whose voxel has some component
strictly GREATER than the corresponding volume dimension, the
`self >= sub` check fails, so `localize_sources` (identity affine, MNI
system, empty table, `replace_bad=True` with the defaults) does not raise
and does not look up a label: the call succeeds with one row per point and
every such row carries the `replace_with` sentinel in its label and index
fields. (Points with a component equal to the dimension raise IndexError,
and negative components are looked up via Python negative indexing — see
the counterexample.) -/
theorem c2_amended_beyond_bounds (s : RoiState)
    (pts : List (Int × Int × Int)) (hhdr : s.hdr = eye4)
    (hsys : s.system = "mni") (hana : s.analysis = [])
    (hout : ∀ p ∈ pts, roiGe s.vol.shape (roiVoxel p) = false) :
    (localize_sources s pts none true defaultBadPatterns "Not found").2
        = none ∧
    (localize_sources s pts none true defaultBadPatterns
        "Not found").1.analysis.length = pts.length ∧
    ∀ r ∈ (localize_sources s pts none true defaultBadPatterns
        "Not found").1.analysis,
      r.label = some "Not found" ∧ r.rindex = some (.inr "Not found") := by
  have hlen : ((List.range pts.length).map
      (fun k => "s" ++ toString k)).length = pts.length := by simp
  have hcl := localize_sources_closed s pts none
    ((List.range pts.length).map (fun k => "s" ++ toString k)) rfl hsys hana
    hlen (fun p hp hge => absurd hge (by simp [hout p hp]))
  rw [hcl]
  refine ⟨rfl, by simp [List.length_zip, hlen], ?_⟩
  intro r hr
  obtain ⟨pn, hpn, rfl⟩ := List.mem_map.1 hr
  exact localRowFinal_label_sentinel s pn (hout pn.1 (mem_zip_left hpn))

/-- Witness for the amended C2: a batch of two points beyond the 1×1×1
volume returns two sentinel rows without raising. -/
theorem c2_amended_beyond_bounds_witness :
    ((localize_sources roiStateA [(2, 0, 0), (0, 5, 0)] none true
        defaultBadPatterns "Not found").2 = none ∧
    (localize_sources roiStateA [(2, 0, 0), (0, 5, 0)] none true
        defaultBadPatterns "Not found").1.analysis.length = 2 ∧
    ∀ r ∈ (localize_sources roiStateA [(2, 0, 0), (0, 5, 0)] none true
        defaultBadPatterns "Not found").1.analysis,
      r.label = some "Not found" ∧ r.rindex = some (.inr "Not found")) :=
  c2_amended_beyond_bounds roiStateA [(2, 0, 0), (0, 5, 0)] (by rfl)
    (by rfl) (by rfl) (by decide)

/-- C3 counterexample: loading a valid 3-d volume with matching index/label
arrays but a 3×3 affine raises the shape error only after `vol`, `_n_roi`
and `hdr` have already been overwritten — this failure path mutates the
ROI object's state. -/
theorem c3_counterexample :
    (change_roi_object roiStateA "custom" roiVolB ["B", "C"] [1, 2]
        (some [[1, 0, 0], [0, 1, 0], [0, 0, 1]]) "mni").2
      = some "AssertionError: hdr.shape == (4, 4)" ∧
    (change_roi_object roiStateA "custom" roiVolB ["B", "C"] [1, 2]
        (some [[1, 0, 0], [0, 1, 0], [0, 0, 1]]) "mni").1.vol
      ≠ roiStateA.vol ∧
    (change_roi_object roiStateA "custom" roiVolB ["B", "C"] [1, 2]
        (some [[1, 0, 0], [0, 1, 0], [0, 0, 1]]) "mni").1.n_roi
      ≠ roiStateA.n_roi ∧
    (change_roi_object roiStateA "custom" roiVolB ["B", "C"] [1, 2]
        (some [[1, 0, 0], [0, 1, 0], [0, 0, 1]]) "mni").1.hdr
      ≠ roiStateA.hdr := by
  exact ⟨by rfl, by decide, by decide, by decide⟩

/-- C3 amended: an invalid volume dimension or an index/label length
mismatch aborts `change_roi_object` before any of the volume, ROI count,
affine, system or reference-table fields is written (only the per-atlas
offset, set unconditionally before the checks, changes); but a non-4×4
affine is detected only after the volume, the ROI count and the affine
itself have been overwritten, so that failure path mutates state (the
system and reference table still keep their old values). -/
theorem c3_amended_mutation (s : RoiState) (name : String) (vol : NDArray)
    (label : List String) (index : List Int)
    (hdr : Option (List (List Flt))) (system : String)
    (hname : ¬(name = "brodmann" ∨ name = "talairach" ∨ name = "aal")) :
    (vol.shape.length ≠ 3 →
      change_roi_object s name vol label index hdr system
        = ({ s with offset := if name = "talairach" then -1 else 0 },
           some "AssertionError: vol.ndim == 3")) ∧
    (vol.shape.length = 3 → index.length ≠ label.length →
      change_roi_object s name vol label index hdr system
        = ({ s with offset := if name = "talairach" then -1 else 0 },
           some "AssertionError: len(index) == len(label)")) ∧
    (vol.shape.length = 3 → index.length = label.length →
      matShape (hdr.getD eye4) ≠ (4, 4) →
      change_roi_object s name vol label index hdr system
        = ({ s with offset := if name = "talairach" then -1 else 0,
                    vol := vol, n_roi := index.length,
                    hdr := hdr.getD eye4 },
           some "AssertionError: hdr.shape == (4, 4)")) := by
  refine ⟨?_, ?_, ?_⟩
  · intro h1
    simp [change_roi_object, hname, h1]
  · intro h1 h2
    simp [change_roi_object, hname, h1, h2]
  · intro h1 h2 h3
    simp [change_roi_object, hname, h1, h2, h3]

/-- Witness for the amended C3 exercising all three failure paths on
concrete inputs. -/
theorem c3_amended_mutation_witness :
    (change_roi_object roiStateA "custom" { shape := [2, 2], data := [] }
        ["B"] [1] none "mni"
      = ({ roiStateA with offset := 0 },
         some "AssertionError: vol.ndim == 3")) ∧
    (change_roi_object roiStateA "custom" roiVolB ["B"] [1, 2] none "mni"
      = ({ roiStateA with offset := 0 },
         some "AssertionError: len(index) == len(label)")) ∧
    (change_roi_object roiStateA "custom" roiVolB ["B", "C"] [1, 2]
        (some [[1, 0, 0], [0, 1, 0], [0, 0, 1]]) "mni"
      = ({ roiStateA with offset := 0, vol := roiVolB, n_roi := 2,
                           hdr := [[1, 0, 0], [0, 1, 0], [0, 0, 1]] },
         some "AssertionError: hdr.shape == (4, 4)")) := by
  refine ⟨?_, ?_, ?_⟩
  · exact (c3_amended_mutation roiStateA "custom"
      { shape := [2, 2], data := [] } ["B"] [1] none "mni"
      (by decide)).1 (by decide)
  · exact (c3_amended_mutation roiStateA "custom" roiVolB ["B"] [1, 2]
      none "mni" (by decide)).2.1 (by decide) (by decide)
  · exact (c3_amended_mutation roiStateA "custom" roiVolB ["B", "C"] [1, 2]
      (some [[1, 0, 0], [0, 1, 0], [0, 0, 1]]) "mni" (by decide)).2.2
      (by decide) (by decide) (by decide)

/-- C5 counterexample: the localization table is NOT recreated per call — on
a fresh object a call with two points leaves a two-row table, and a
following call with one point hits the stale rows: the name-column
assignment raises a length-mismatch ValueError and the two stale rows
persist, instead of a one-row table. -/
theorem c5_counterexample :
    (localize_sources roiStateA [(0, 0, 0), (0, 0, 0)] none true
        defaultBadPatterns "Not found").2 = none ∧
    (localize_sources roiStateA [(0, 0, 0), (0, 0, 0)] none true
        defaultBadPatterns "Not found").1.analysis.length = 2 ∧
    (localize_sources (localize_sources roiStateA [(0, 0, 0), (0, 0, 0)]
        none true defaultBadPatterns "Not found").1 [(0, 0, 0)] none true
        defaultBadPatterns "Not found").2
      = some "ValueError: Length of values does not match length of index" ∧
    (localize_sources (localize_sources roiStateA [(0, 0, 0), (0, 0, 0)]
        none true defaultBadPatterns "Not found").1 [(0, 0, 0)] none true
        defaultBadPatterns "Not found").1.analysis.length = 2 := by
  exact ⟨by rfl, by rfl, by rfl, by rfl⟩

/-- C5 amended: on an object whose localization table is empty (as after
`change_roi_object`), a call with n points whose voxel accesses cannot trip
the unchecked IndexError returns without raising, with exactly n rows, one
per queried point in order (the name column lists the given names in
order); but the table is mutated in place rather than recreated, so a later
call with fewer points than a previous one raises a ValueError and keeps
the stale rows (see the counterexample). -/
theorem c5_amended_one_row_per_point (s : RoiState)
    (pts : List (Int × Int × Int)) (names : List String)
    (hhdr : s.hdr = eye4) (hsys : s.system = "mni") (hana : s.analysis = [])
    (hlen : names.length = pts.length) (hsafe : ∀ p ∈ pts, locSafe s p)
    (hclean : ∀ nm ∈ names, nm ≠ "undefined" ∧ nm ≠ "None") :
    (localize_sources s pts (some names) true defaultBadPatterns
        "Not found").2 = none ∧
    (localize_sources s pts (some names) true defaultBadPatterns
        "Not found").1.analysis.length = pts.length ∧
    (localize_sources s pts (some names) true defaultBadPatterns
        "Not found").1.analysis.map (fun r => r.text) = names.map some := by
  have hcl := localize_sources_closed s pts (some names) names rfl hsys
    hana hlen hsafe
  rw [hcl]
  refine ⟨rfl, by simp [List.length_zip, hlen], ?_⟩
  simp only [List.map_map]
  have hpt : ∀ pn ∈ pts.zip names,
      ((fun r => r.text) ∘ localRowFinal s) pn = some pn.2 := by
    intro pn hpn
    exact localRowFinal_text s pn (hclean pn.2 (mem_zip_right hpn)).1
      (hclean pn.2 (mem_zip_right hpn)).2
  rw [List.map_congr_left hpt]
  have : (pts.zip names).map (fun pn => some pn.2)
      = ((pts.zip names).map (fun pn => pn.2)).map some := by
    rw [List.map_map]; rfl
  rw [this, List.map_snd_zip pts names (le_of_eq hlen)]

/-- Witness for the amended C5: two in-bounds points on the concrete volume
give a two-row table with the two names in order. -/
theorem c5_amended_one_row_per_point_witness :
    ((localize_sources roiStateA [(0, 0, 0), (0, 0, 0)]
        (some ["p0", "p1"]) true defaultBadPatterns "Not found").2 = none ∧
    (localize_sources roiStateA [(0, 0, 0), (0, 0, 0)]
        (some ["p0", "p1"]) true defaultBadPatterns
        "Not found").1.analysis.length = 2 ∧
    (localize_sources roiStateA [(0, 0, 0), (0, 0, 0)]
        (some ["p0", "p1"]) true defaultBadPatterns
        "Not found").1.analysis.map (fun r => r.text)
      = ["p0", "p1"].map some) := by
  have h := c5_amended_one_row_per_point roiStateA [(0, 0, 0), (0, 0, 0)]
    ["p0", "p1"] (by rfl) (by rfl) (by rfl) (by rfl)
    (by
      intro p hp hge
      have hp0 : p = (0, 0, 0) := by simpa using hp
      subst hp0
      rfl) (by decide)
  exact ⟨h.1, h.2.1, h.2.2⟩

/-- C7 counterexample: a first level carrying two vertices whose single
face references only index 0 gives the code offset `faces.max() + 1 = 1`,
not the vertex count 2 the claim states; the second level's face lands on
concatenated index 1 — a vertex of the first level (1 < 2) — where the
claimed offset would send it to index 2. -/
theorem c7_counterexample :
    (concatLevels
        [([⟨0, 0, 0⟩, ⟨1, 0, 0⟩], [(0, 0, 0)]), ([⟨2, 0, 0⟩], [(0, 0, 0)])]
        [(1, 0, 0, 1), (0, 1, 0, 1)]).2.1 = [(0, 0, 0), (1, 1, 1)] ∧
    specConcatFaces
        [([⟨0, 0, 0⟩, ⟨1, 0, 0⟩], [(0, 0, 0)]), ([⟨2, 0, 0⟩], [(0, 0, 0)])]
      = [(0, 0, 0), (2, 2, 2)] ∧
    ([(0, 0, 0), (1, 1, 1)] : List Face) ≠ [(0, 0, 0), (2, 2, 2)] ∧
    (1 : Nat) < 2 := by
  exact ⟨by rfl, by rfl, by decide, by decide⟩

/-- C7 amended: the code shifts each level's faces by `faces.max() + 1` of
the accumulated faces, not by the preceding vertex count; provided every
level's faces reference their full vertex index range
(`faces.max() + 1 = len(vertices)`, as marching-cubes output does), the two
coincide: the result's vertices are the levels' vertex arrays concatenated,
its faces are each level's faces shifted by the total number of vertices of
the preceding levels (so distinct levels' index ranges never overlap),
every face index stays within the concatenated vertex array, and each
level's vertices are all assigned that level's (alpha-1) color. -/
theorem c7_amended_unique_color_concat (levels : List LevelMesh)
    (cols : List Rgba) (hlv : ∀ l ∈ levels, goodLevel l)
    (hlen : levels.length = cols.length) :
    (concatLevels levels cols).1 = (levels.map (fun l => l.1)).flatten ∧
    (concatLevels levels cols).2.1 = specConcatFaces levels ∧
    (concatLevels levels cols).2.2
      = specColors levels
          (cols.map (fun c => (c.1, c.2.1, c.2.2.1, (1 : Flt)))) ∧
    ∀ fc ∈ (concatLevels levels cols).2.1,
      faceKey fc < ((levels.map (fun l => l.1)).flatten).length := by
  have main : (concatLevels levels cols).1
        = (levels.map (fun l => l.1)).flatten ∧
      (concatLevels levels cols).2.1 = specConcatFaces levels ∧
      (concatLevels levels cols).2.2
        = specColors levels
            (cols.map (fun c => (c.1, c.2.1, c.2.2.1, (1 : Flt)))) := by
    cases levels with
    | nil =>
      refine ⟨by simp [concatLevels],
        by simp [concatLevels, specConcatFaces],
        by simp [concatLevels, specColors]⟩
    | cons l ls =>
      cases cols with
      | nil => simp at hlen
      | cons c cs =>
        obtain ⟨hgv, hgf, hgm⟩ := hlv l (by simp)
        have hlen' : ls.length = cs.length := by simpa using hlen
        have hstep0 : concatStep ([], [], [])
            (l, (c.1, c.2.1, c.2.2.1, (1 : Flt)))
            = (l.1, l.2,
               List.replicate l.1.length (c.1, c.2.1, c.2.2.1, 1)) := by
          simp [concatStep]
        have hrep : List.replicate l.1.length
            (c.1, c.2.1, c.2.2.1, (1 : Flt)) ≠ [] := by
          intro hr
          have h2 := congrArg List.length hr
          simp only [List.length_replicate, List.length_nil] at h2
          exact hgv (List.length_eq_zero.1 h2)
        have hrun : concatLevels (l :: ls) (c :: cs)
            = (ls.zip (cs.map
                (fun c => (c.1, c.2.1, c.2.2.1, (1 : Flt))))).foldl
                concatStep (l.1, l.2,
                  List.replicate l.1.length (c.1, c.2.1, c.2.2.1, 1)) := by
          simp only [concatLevels, List.map_cons, List.zip_cons_cons,
            List.foldl_cons, hstep0]
        rw [hrun, concat_fold_closed ls _ l.1 l.2 _ hgv hgf hrep hgm
          (fun q hq => hlv q (by simp [hq])) (by simp [hlen'])]
        refine ⟨by simp, by simp [specConcatFaces], ?_⟩
        simp [specColors]
  refine ⟨main.1, main.2.1, main.2.2, ?_⟩
  intro fc hfc
  rw [main.2.1] at hfc
  exact specConcatFaces_lt levels hlv fc hfc

/-- Witness for the amended C7 on two concrete well-formed levels. -/
theorem c7_amended_unique_color_concat_witness :
    ((concatLevels lvlsW colsW).1 = (lvlsW.map (fun l => l.1)).flatten ∧
    (concatLevels lvlsW colsW).2.1 = specConcatFaces lvlsW ∧
    (concatLevels lvlsW colsW).2.2
      = specColors lvlsW
          (colsW.map (fun c => (c.1, c.2.1, c.2.2.1, (1 : Flt)))) ∧
    ∀ fc ∈ (concatLevels lvlsW colsW).2.1,
      faceKey fc < ((lvlsW.map (fun l => l.1)).flatten).length) :=
  c7_amended_unique_color_concat lvlsW colsW (by decide) (by rfl)

/-- C8: after `set_data(data, ...)` the cached range `_minmax` equals
`(data.min(), data.max())`, and a subsequent `autoscale()` sets the active
`clim` to exactly that cached range. -/
theorem c8_set_data_minmax_autoscale (cb : CbarBase) (d0 : Flt) (ds : List Flt)
    (cmap : Option String) (clim : Option (Flt × Flt)) (vmin vmax : Option Flt)
    (under over : Option ColorSpec) :
    (cb.set_data d0 ds cmap clim vmin vmax under over).minmax
        = some (npMin d0 ds, npMax d0 ds) ∧
    ((cb.set_data d0 ds cmap clim vmin vmax under over).autoscale).clim
        = some (npMin d0 ds, npMax d0 ds) := by
  constructor <;> rfl

/-- C10: calling `set_data` with the optional parameters omitted (their
default `None`) overwrites all six configuration fields with `None`; only the
cached range is derived from the data, and every other field is untouched. -/
theorem c10_set_data_overwrites_with_none (cb : CbarBase) (d0 : Flt)
    (ds : List Flt) :
    cb.set_data d0 ds none none none none none none
      = { cb with cmap := none, clim := none, vmin := none, vmax := none,
                  under := none, over := none,
                  minmax := some (npMin d0 ds, npMax d0 ds) } := by
  rfl

/-- C9: round-trip through the exported snapshot — rebuilding a ColorMapper
configuration from `to_dict()` (colors resolved to concrete RGBA tuples) and
mapping any data yields exactly the colors produced from the live
`to_kwargs()` configuration, for every colormap evaluation function. -/
theorem c9_export_round_trip (cmapF : String → Flt → Rgba) (cb : CbarBase)
    (data : List Flt) :
    array2colormap cmapF (kwargsOfDict cb.to_dict) data
      = array2colormap cmapF cb.to_kwargs data := by
  unfold array2colormap kwargsOfDict CbarBase.to_dict CbarBase.to_kwargs
  simp only
  apply List.map_congr_left
  intro x hx
  unfold mapOne
  simp only
  have hu : color2tupleOpt (some (ColorSpec.rgba (color2tupleOpt cb.under)))
      = color2tupleOpt cb.under := by
    cases cb.under <;> rfl
  have ho : color2tupleOpt (some (ColorSpec.rgba (color2tupleOpt cb.over)))
      = color2tupleOpt cb.over := by
    cases cb.over <;> rfl
  rw [hu, ho]

end Visbrain
